import Mathlib

/-!
Shallow embedding of the transaction-enrichment pipeline of
go-solana-tx-explorer, centred on `FetchAccountTransactions`
(src/transactions.go), the environment-derived WebSocket URL
(`GetWSURL`, src/unnamed/part_000) and the post-fetch read in `main`
(src/utils.go, src/unnamed/part_001).

Modelling conventions:
- `rpc.TransactionMeta` and `solana.Transaction` are external library
  types; they are carried opaquely as type parameters `Meta` and `Tx`.
- The upstream RPC is modelled functionally: the signature-listing call
  is an `Except String (List SignatureRef)` value, and the per-index
  full-transaction fetch is a function `Nat → FetchOutcome Meta Tx`.
- Goroutine scheduling is modelled by an explicit `completionOrder`
  list: the order in which the per-index task results are received on
  the channel.  A run of the Go code corresponds to a completion order
  that is a permutation of the launched indices `[0, processCount)`.
- Go strings handled byte-wise (URL scheme slicing) are modelled as
  `List Char`; all scheme prefixes involved are ASCII, so byte slicing
  and character slicing coincide.
-/

namespace SolanaTxExplorer

/-- One entry of the `GetSignaturesForAddress` answer: signature string,
slot and optional block time (src/unnamed/part_002 `TransactionInfo`
sources its fields from this). -/
structure SignatureRef where
  signature : String
  slot : Nat
  blockTime : Option Int
deriving DecidableEq, Inhabited

/-- Outcome of `txResult.Transaction.GetTransaction()` for a fetched
transaction payload: either a parsed transaction or a parse error. -/
inductive DecodeOutcome (Tx : Type) where
  | ok (tx : Tx)
  | err (msg : String)
deriving DecidableEq

/-- Outcome of one `client.GetTransaction` call: either a fetch error, or
success carrying the (optional) meta block and the optional encoded
transaction payload together with how its decode goes. -/
inductive FetchOutcome (Meta Tx : Type) where
  | fail (msg : String)
  | success (meta : Option Meta) (payload : Option (DecodeOutcome Tx))
deriving DecidableEq

/-- Model of `TransactionInfo` (src/unnamed/part_002): signature, slot, optional
block time, optional meta, optional decoded transaction. -/
structure TransactionInfo (Meta Tx : Type) where
  signature : String
  slot : Nat
  blockTime : Option Int
  meta : Option Meta
  transaction : Option Tx
deriving DecidableEq

/-- Model of `AccountTransactions` (src/unnamed/part_002): the batch result.  The
account is carried as its base58 string; `lastFetched` is an abstract
timestamp. -/
structure AccountTransactions (Meta Tx : Type) where
  account : String
  transactions : List (TransactionInfo Meta Tx)
  lastFetched : Nat
deriving DecidableEq

/-- The per-task message sent on `resultChan` (src/transactions.go lines
35-39): `info = none` models `err ≠ nil` (the zero-value info is never
read in that case). -/
structure TransactionResult (Meta Tx : Type) where
  info : Option (TransactionInfo Meta Tx)
  index : Nat
deriving DecidableEq

/-- Body of the per-index goroutine (src/transactions.go lines 46-85):
on fetch error, report the error with the index; on success, build the
`TransactionInfo` from the signature entry and the fetched meta, setting
the decoded `transaction` field only when `GetTransaction()` parses. -/
def runTask {Meta Tx : Type} (index : Nat) (sig : SignatureRef)
    (outcome : FetchOutcome Meta Tx) : TransactionResult Meta Tx :=
  match outcome with
  | .fail _ => { info := none, index := index }
  | .success meta payload =>
    let base : TransactionInfo Meta Tx :=
      { signature := sig.signature, slot := sig.slot,
        blockTime := sig.blockTime, meta := meta, transaction := none }
    match payload with
    | none => { info := some base, index := index }
    | some (.err _) => { info := some base, index := index }
    | some (.ok tx) =>
      { info := some { base with transaction := some tx }, index := index }

/-- The `processCount` computation (src/transactions.go lines 28-31): start from the
number of signatures and clamp to `limit` when `0 < limit < count`. -/
def processCount (numSignatures : Nat) (limit : Int) : Nat :=
  if 0 < limit ∧ limit < (numSignatures : Int) then limit.toNat
  else numSignatures

/-- The indices for which a fetch task is launched (the loop at
src/transactions.go lines 44-46 runs `i = 0, …, processCount-1`). -/
def launchedIndices (numSignatures : Nat) (limit : Int) : List Nat :=
  List.range (processCount numSignatures limit)

/-- One step of filling `resultMap` from a received channel message
(src/transactions.go lines 96-100): results with a non-nil error are
skipped; successful ones are keyed by their original index. -/
def insertResult {Meta Tx : Type}
    (m : Nat → Option (TransactionInfo Meta Tx))
    (r : TransactionResult Meta Tx) : Nat → Option (TransactionInfo Meta Tx) :=
  match r.info with
  | none => m
  | some info => fun j => if j = r.index then some info else m j

/-- The `resultMap` after draining the channel: a left fold of
`insertResult` over the received results, starting from the empty map. -/
def buildResultMap {Meta Tx : Type} (results : List (TransactionResult Meta Tx)) :
    Nat → Option (TransactionInfo Meta Tx) :=
  results.foldl insertResult (fun _ => none)

/-- The info produced by the task for index `i` (independent of
scheduling): what `resultMap` holds at `i` after all tasks reported. -/
def taskInfo {Meta Tx : Type} (sigs : List SignatureRef)
    (fetch : Nat → FetchOutcome Meta Tx) (i : Nat) :
    Option (TransactionInfo Meta Tx) :=
  (runTask i (sigs.getD i default) (fetch i)).info

/-- Model of `FetchAccountTransactions` (src/transactions.go lines 22-115).
`listing` is the answer of `GetSignaturesForAddress`; on its failure the
function returns the wrapping error and no batch.  Otherwise it launches
one task per index below `processCount`, receives their results in
`completionOrder`, fills `resultMap`, and reassembles the output by
ascending original index (lines 102-106), wrapping it with the account
and the current time. -/
def fetchAccountTransactions {Meta Tx : Type} (account : String)
    (listing : Except String (List SignatureRef))
    (fetch : Nat → FetchOutcome Meta Tx) (limit : Int)
    (completionOrder : List Nat) (now : Nat) :
    Except String (AccountTransactions Meta Tx) :=
  match listing with
  | .error e =>
    .error ("failed to get signatures for account " ++ account ++ ": " ++ e)
  | .ok signatures =>
    let n := processCount signatures.length limit
    let collected := completionOrder.map
      (fun i => runTask i (signatures.getD i default) (fetch i))
    let resultMap := buildResultMap collected
    let results := (List.range n).filterMap resultMap
    .ok { account := account, transactions := results, lastFetched := now }

/-- The ascending-index reassembly of all successful task results: the
reference output sequence, independent of any completion order. -/
def enrichedSequence {Meta Tx : Type} (sigs : List SignatureRef)
    (fetch : Nat → FetchOutcome Meta Tx) (limit : Int) :
    List (TransactionInfo Meta Tx) :=
  (List.range (processCount sigs.length limit)).filterMap (taskInfo sigs fetch)

/-- The original indices whose task succeeded, in ascending order. -/
def successIndices {Meta Tx : Type} (sigs : List SignatureRef)
    (fetch : Nat → FetchOutcome Meta Tx) (limit : Int) : List Nat :=
  (List.range (processCount sigs.length limit)).filter
    (fun i => (taskInfo sigs fetch i).isSome)

/-- A task's reported index is the index it was launched with. -/
theorem runTask_index {Meta Tx : Type} (i : Nat) (sig : SignatureRef)
    (o : FetchOutcome Meta Tx) : (runTask i sig o).index = i := by
  cases o with
  | fail _ => rfl
  | success meta payload =>
    cases payload with
    | none => rfl
    | some d => cases d <;> rfl

/-- Folding further results whose indices all differ from `j` leaves the
map's value at `j` unchanged. -/
theorem foldl_insertResult_of_not_mem {Meta Tx : Type}
    (results : List (TransactionResult Meta Tx))
    (m : Nat → Option (TransactionInfo Meta Tx)) (j : Nat)
    (h : ∀ r ∈ results, r.index ≠ j) :
    (results.foldl insertResult m) j = m j := by
  induction results generalizing m with
  | nil => rfl
  | cons r rest ih =>
    have hr : r.index ≠ j := h r (List.mem_cons_self r rest)
    have hrest : ∀ r' ∈ rest, r'.index ≠ j :=
      fun r' hr' => h r' (List.mem_cons_of_mem r hr')
    rw [List.foldl_cons, ih _ hrest]
    unfold insertResult
    cases hinfo : r.info with
    | none => rfl
    | some info =>
      simp only []
      rw [if_neg (fun hj => hr hj.symm)]

/-- Evaluating the folded map at an index `j` occurring once in the
received order yields exactly task `j`'s info (overriding the
accumulator when that info is present). -/
theorem foldl_insertResult_of_mem {Meta Tx : Type}
    (g : Nat → TransactionResult Meta Tx) (hg : ∀ i, (g i).index = i)
    (order : List Nat) (hnd : order.Nodup) (j : Nat) (hj : j ∈ order)
    (m : Nat → Option (TransactionInfo Meta Tx)) :
    ((order.map g).foldl insertResult m) j = Option.or ((g j).info) (m j) := by
  induction order generalizing m with
  | nil => cases hj
  | cons i rest ih =>
    rw [List.map_cons, List.foldl_cons]
    rcases List.mem_cons.mp hj with hji | hjrest
    · subst hji
      have hjnotin : j ∉ rest := (List.nodup_cons.mp hnd).1
      have hall : ∀ r ∈ rest.map g, r.index ≠ j := by
        intro r hr
        rcases List.mem_map.mp hr with ⟨k, hk, hrk⟩
        rw [← hrk, hg k]
        intro hkj; exact hjnotin (hkj ▸ hk)
      rw [foldl_insertResult_of_not_mem _ _ _ hall]
      unfold insertResult
      cases hinfo : (g j).info with
      | none => simp [Option.or]
      | some info => simp [Option.or, hg j]
    · have hnd' : rest.Nodup := (List.nodup_cons.mp hnd).2
      have hji : j ≠ i := by
        intro hji; exact (List.nodup_cons.mp hnd).1 (hji ▸ hjrest)
      rw [ih hnd' hjrest]
      congr 1
      unfold insertResult
      cases hinfo : (g i).info with
      | none => rfl
      | some info =>
        simp only []
        rw [if_neg (by rw [hg i]; exact hji)]

/-- The `resultMap` at any launched index `j` is task `j`'s info, whatever
the completion order, as long as each launched task reports once. -/
theorem buildResultMap_eval {Meta Tx : Type}
    (g : Nat → TransactionResult Meta Tx) (hg : ∀ i, (g i).index = i)
    (order : List Nat) (hnd : order.Nodup) (j : Nat) (hj : j ∈ order) :
    buildResultMap (order.map g) j = (g j).info := by
  unfold buildResultMap
  rw [foldl_insertResult_of_mem g hg order hnd j hj]
  cases (g j).info <;> rfl

/-- Core correctness of the collection phase: when the completion order
is a permutation of the launched indices, the assembled output equals
the canonical ascending-index `enrichedSequence`, and the whole call
returns it wrapped with the account and timestamp. -/
theorem fetchAccountTransactions_ok {Meta Tx : Type} (account : String)
    (sigs : List SignatureRef) (fetch : Nat → FetchOutcome Meta Tx)
    (limit : Int) (order : List Nat) (now : Nat)
    (hperm : order.Perm (launchedIndices sigs.length limit)) :
    fetchAccountTransactions account (.ok sigs) fetch limit order now =
      .ok { account := account,
            transactions := enrichedSequence sigs fetch limit,
            lastFetched := now } := by
  unfold fetchAccountTransactions enrichedSequence
  simp only [Except.ok.injEq, AccountTransactions.mk.injEq, and_true, true_and]
  apply List.filterMap_congr
  intro j hj
  have hjlt : j < processCount sigs.length limit := List.mem_range.mp hj
  have hjord : j ∈ order := by
    rw [hperm.mem_iff]
    exact List.mem_range.mpr hjlt
  have hnd : order.Nodup := hperm.nodup_iff.mpr (List.nodup_range _)
  exact buildResultMap_eval
    (fun i => runTask i (sigs.getD i default) (fetch i))
    (fun i => runTask_index i _ _) order hnd j hjord

/-- Restricting a `filterMap` to the elements on which the function is
`some` does not change the outcome. -/
theorem filterMap_eq_filterMap_filter_isSome {α β : Type} (f : α → Option β)
    (l : List α) :
    l.filterMap f = (l.filter (fun a => (f a).isSome)).filterMap f := by
  induction l with
  | nil => rfl
  | cons a l ih =>
    cases hfa : f a with
    | none => simp [List.filterMap_cons, List.filter_cons, hfa, ih]
    | some b => simp [List.filterMap_cons, List.filter_cons, hfa, ih]

/-- Dropping an element on which the function is `none` from the domain
of a `filterMap` does not change the outcome. -/
theorem filterMap_filter_ne {α β : Type} [DecidableEq α] (f : α → Option β)
    (i : α) (hi : f i = none) (l : List α) :
    (l.filter (fun j => j ≠ i)).filterMap f = l.filterMap f := by
  induction l with
  | nil => rfl
  | cons a l ih =>
    simp only [ne_eq, decide_not] at ih ⊢
    by_cases ha : a = i
    · subst ha
      simp [List.filter_cons, List.filterMap_cons, hi, ih]
    · cases hfa : f a with
      | none => simp [List.filter_cons, List.filterMap_cons, ha, hfa, ih]
      | some b => simp [List.filter_cons, List.filterMap_cons, ha, hfa, ih]

instance exceptDecEq {ε α : Type} [DecidableEq ε] [DecidableEq α] :
    DecidableEq (Except ε α) := fun x y =>
  match x, y with
  | .error a, .error b =>
    if h : a = b then .isTrue (by rw [h])
    else .isFalse (by intro hc; cases hc; exact h rfl)
  | .error _, .ok _ => .isFalse (by intro hc; cases hc)
  | .ok _, .error _ => .isFalse (by intro hc; cases hc)
  | .ok a, .ok b =>
    if h : a = b then .isTrue (by rw [h])
    else .isFalse (by intro hc; cases hc; exact h rfl)

/-- Demo signature listing used by the concrete witnesses. -/
def demoSigs : List SignatureRef :=
  [{ signature := "S0", slot := 10, blockTime := some 100 },
   { signature := "S1", slot := 11, blockTime := none },
   { signature := "S2", slot := 12, blockTime := some 102 }]

/-- Demo upstream where only the fetch at index 1 fails. -/
def demoFetch : Nat → FetchOutcome Nat Nat :=
  fun i => if i = 1 then .fail "boom" else .success (some i) (some (.ok i))

/-- Demo upstream where the fetch at index 1 succeeds but its payload
fails to decode. -/
def demoFetchDecodeFail : Nat → FetchOutcome Nat Nat :=
  fun i => if i = 1 then .success (some 5) (some (.err "bad"))
  else .success none none

/-- C1: for every input signature list and every completion order of the
concurrent fetch tasks, the batch result's records are ordered strictly
by ascending original input index — the output is the `filterMap` of the
strictly increasing list of successful indices, a shape independent of
the completion order. -/
theorem spec_C1 {Meta Tx : Type} (account : String) (sigs : List SignatureRef)
    (fetch : Nat → FetchOutcome Meta Tx) (limit : Int) (order : List Nat)
    (now : Nat) (hperm : order.Perm (launchedIndices sigs.length limit)) :
    fetchAccountTransactions account (.ok sigs) fetch limit order now =
      .ok { account := account,
            transactions :=
              (successIndices sigs fetch limit).filterMap (taskInfo sigs fetch),
            lastFetched := now } ∧
    (successIndices sigs fetch limit).Pairwise (· < ·) := by
  constructor
  · rw [fetchAccountTransactions_ok account sigs fetch limit order now hperm]
    simp only [enrichedSequence, successIndices]
    rw [filterMap_eq_filterMap_filter_isSome]
  · exact List.Pairwise.filter _ (List.pairwise_lt_range _)

/-- Witness for C1 at a concrete input with an out-of-order completion. -/
theorem spec_C1_witness :
    ([2, 0, 1] : List Nat).Perm (launchedIndices demoSigs.length 3) ∧
    (fetchAccountTransactions "acct" (.ok demoSigs) demoFetch 3 [2, 0, 1] 7 =
        .ok { account := "acct",
              transactions :=
                (successIndices demoSigs demoFetch 3).filterMap
                  (taskInfo demoSigs demoFetch),
              lastFetched := 7 } ∧
      (successIndices demoSigs demoFetch 3).Pairwise (· < ·)) :=
  ⟨by decide, spec_C1 "acct" demoSigs demoFetch 3 [2, 0, 1] 7 (by decide)⟩

/-- C2: if the fetch for index `i` fails, the batch contains no entry
for `i`, the other indices keep their relative ascending order, and the
call still returns without a top-level error. -/
theorem spec_C2 {Meta Tx : Type} (account : String) (sigs : List SignatureRef)
    (fetch : Nat → FetchOutcome Meta Tx) (limit : Int) (order : List Nat)
    (now : Nat) (i : Nat) (msg : String)
    (hperm : order.Perm (launchedIndices sigs.length limit))
    (hfail : fetch i = .fail msg) :
    taskInfo sigs fetch i = none ∧
    fetchAccountTransactions account (.ok sigs) fetch limit order now =
      .ok { account := account,
            transactions :=
              ((List.range (processCount sigs.length limit)).filter
                  (fun j => j ≠ i)).filterMap (taskInfo sigs fetch),
            lastFetched := now } := by
  have hti : taskInfo sigs fetch i = none := by
    simp [taskInfo, runTask, hfail]
  refine ⟨hti, ?_⟩
  rw [fetchAccountTransactions_ok account sigs fetch limit order now hperm]
  simp only [enrichedSequence]
  rw [filterMap_filter_ne _ i hti]

/-- Witness for C2: the spec's scenario `[S0 ok, S1 fail, S2 ok]` with
`limit = 3`; the output is `[record(S0), record(S2)]` with no error. -/
theorem spec_C2_witness :
    ([2, 0, 1] : List Nat).Perm (launchedIndices demoSigs.length 3) ∧
    demoFetch 1 = .fail "boom" ∧
    (taskInfo demoSigs demoFetch 1 = none ∧
      fetchAccountTransactions "acct" (.ok demoSigs) demoFetch 3 [2, 0, 1] 7 =
        .ok { account := "acct",
              transactions :=
                ((List.range (processCount demoSigs.length 3)).filter
                    (fun j => j ≠ 1)).filterMap (taskInfo demoSigs demoFetch),
              lastFetched := 7 }) ∧
    fetchAccountTransactions "acct" (.ok demoSigs) demoFetch 3 [2, 0, 1] 7 =
      .ok { account := "acct",
            transactions :=
              [{ signature := "S0", slot := 10, blockTime := some 100,
                 meta := some 0, transaction := some 0 },
               { signature := "S2", slot := 12, blockTime := some 102,
                 meta := some 2, transaction := some 2 }],
            lastFetched := 7 } :=
  ⟨by decide, by decide,
   spec_C2 "acct" demoSigs demoFetch 3 [2, 0, 1] 7 1 "boom" (by decide)
     (by decide), by decide⟩

/-- C3: the number of launched fetch tasks is `min N limit` when
`limit > 0` and `N` otherwise, and the launched indices are exactly
those below `processCount`. -/
theorem spec_C3 (n : Nat) (limit : Int) :
    (0 < limit → (launchedIndices n limit).length = min n limit.toNat) ∧
    (limit ≤ 0 → (launchedIndices n limit).length = n) ∧
    (∀ i, i ∈ launchedIndices n limit ↔ i < processCount n limit) := by
  refine ⟨?_, ?_, ?_⟩
  · intro hl
    simp only [launchedIndices, List.length_range, processCount]
    split_ifs with h <;> omega
  · intro hl
    simp only [launchedIndices, List.length_range, processCount]
    split_ifs with h <;> omega
  · intro i
    simp [launchedIndices, List.mem_range]

/-- Witness for C3: the spec's scenario `limit = 2` with 5 available
signatures launches exactly 2 tasks, covering indices 0 and 1 only. -/
theorem spec_C3_witness :
    ((0 : Int) < 2 ∧ (launchedIndices 5 2).length = min 5 (Int.toNat 2)) ∧
    launchedIndices 5 2 = [0, 1] ∧
    (3 ∈ launchedIndices 5 2 ↔ 3 < processCount 5 2) :=
  ⟨⟨by decide, (spec_C3 5 2).1 (by decide)⟩, by decide, (spec_C3 5 2).2.2 3⟩

/-- C4: the whole call fails exactly when the signature listing fails:
then it returns an error whose message contains the queried account and
no batch; otherwise it returns a batch and no error. -/
theorem spec_C4 {Meta Tx : Type} (account : String)
    (listing : Except String (List SignatureRef))
    (fetch : Nat → FetchOutcome Meta Tx) (limit : Int) (order : List Nat)
    (now : Nat) :
    (∀ e, listing = .error e →
      ∃ s, fetchAccountTransactions account listing fetch limit order now =
          .error s ∧ ∃ pre post, s = pre ++ account ++ post) ∧
    (∀ sigs, listing = .ok sigs →
      order.Perm (launchedIndices sigs.length limit) →
      ∃ b, fetchAccountTransactions account listing fetch limit order now =
          .ok b) := by
  constructor
  · intro e he
    subst he
    refine ⟨_, rfl, "failed to get signatures for account ", ": " ++ e, ?_⟩
    exact String.append_assoc _ ": " e
  · intro sigs hs hperm
    subst hs
    exact ⟨_, fetchAccountTransactions_ok account sigs fetch limit order now hperm⟩

/-- Witness for C4, exercising both the failing-listing and the
successful-listing branch at concrete inputs. -/
theorem spec_C4_witness :
    ((Except.error "net down" : Except String (List SignatureRef)) =
        .error "net down" ∧
      ∃ s, fetchAccountTransactions "acct"
          (.error "net down") demoFetch 3 [] 7 = .error s ∧
        ∃ pre post, s = pre ++ "acct" ++ post) ∧
    (([2, 0, 1] : List Nat).Perm (launchedIndices demoSigs.length 3) ∧
      ∃ b, fetchAccountTransactions "acct" (.ok demoSigs) demoFetch 3
          [2, 0, 1] 7 = .ok b) :=
  ⟨⟨rfl, (spec_C4 "acct" (.error "net down") demoFetch 3 [] 7).1
      "net down" rfl⟩,
   ⟨by decide, (spec_C4 "acct" (.ok demoSigs) demoFetch 3 [2, 0, 1] 7).2
      demoSigs rfl (by decide)⟩⟩

/-- C5: for every completion order, the batch never contains an index
twice and never contains an index outside `[0, processCount)`: the
output is indexed by a strictly increasing list of indices all below
`processCount`. -/
theorem spec_C5 {Meta Tx : Type} (account : String) (sigs : List SignatureRef)
    (fetch : Nat → FetchOutcome Meta Tx) (limit : Int) (order : List Nat)
    (now : Nat) (hperm : order.Perm (launchedIndices sigs.length limit)) :
    ∃ b, fetchAccountTransactions account (.ok sigs) fetch limit order now =
        .ok b ∧
      ∃ ks : List Nat, ks.Pairwise (· < ·) ∧
        (∀ k ∈ ks, k < processCount sigs.length limit) ∧
        b.transactions = ks.filterMap (taskInfo sigs fetch) := by
  refine ⟨_, fetchAccountTransactions_ok account sigs fetch limit order now hperm,
    successIndices sigs fetch limit, ?_, ?_, ?_⟩
  · exact List.Pairwise.filter _ (List.pairwise_lt_range _)
  · intro k hk
    exact List.mem_range.mp (List.mem_of_mem_filter hk)
  · simp only [enrichedSequence, successIndices]
    rw [filterMap_eq_filterMap_filter_isSome]

/-- Witness for C5 at a concrete input with an out-of-order completion. -/
theorem spec_C5_witness :
    ([1, 2, 0] : List Nat).Perm (launchedIndices demoSigs.length 0) ∧
    ∃ b, fetchAccountTransactions "acct" (.ok demoSigs) demoFetch 0
        [1, 2, 0] 7 = .ok b ∧
      ∃ ks : List Nat, ks.Pairwise (· < ·) ∧
        (∀ k ∈ ks, k < processCount demoSigs.length 0) ∧
        b.transactions = ks.filterMap (taskInfo demoSigs demoFetch) :=
  ⟨by decide, spec_C5 "acct" demoSigs demoFetch 0 [1, 2, 0] 7 (by decide)⟩

/-- C6: when the fetch for index `i` succeeds but its payload fails to
decode, the batch still contains the item built from the raw metadata
(signature, slot, block time, meta) with an absent decoded-transaction
field, and the call returns without error. -/
theorem spec_C6 {Meta Tx : Type} (account : String) (sigs : List SignatureRef)
    (fetch : Nat → FetchOutcome Meta Tx) (limit : Int) (order : List Nat)
    (now : Nat) (i : Nat) (meta : Option Meta) (e : String)
    (hperm : order.Perm (launchedIndices sigs.length limit))
    (hi : i < processCount sigs.length limit)
    (hf : fetch i = .success meta (some (.err e))) :
    ∃ b, fetchAccountTransactions account (.ok sigs) fetch limit order now =
        .ok b ∧
      ({ signature := (sigs.getD i default).signature,
         slot := (sigs.getD i default).slot,
         blockTime := (sigs.getD i default).blockTime,
         meta := meta, transaction := none } : TransactionInfo Meta Tx) ∈
        b.transactions := by
  refine ⟨_, fetchAccountTransactions_ok account sigs fetch limit order now hperm,
    ?_⟩
  have hti : taskInfo sigs fetch i =
      some { signature := (sigs.getD i default).signature,
             slot := (sigs.getD i default).slot,
             blockTime := (sigs.getD i default).blockTime,
             meta := meta, transaction := none } := by
    simp [taskInfo, runTask, hf]
  simp only [enrichedSequence]
  exact List.mem_filterMap.mpr ⟨i, List.mem_range.mpr hi, hti⟩

/-- Witness for C6: index 1 fetches successfully but fails to decode,
and still appears in the output with metadata only. -/
theorem spec_C6_witness :
    ([2, 1, 0] : List Nat).Perm (launchedIndices demoSigs.length 0) ∧
    1 < processCount demoSigs.length 0 ∧
    demoFetchDecodeFail 1 = .success (some 5) (some (.err "bad")) ∧
    ∃ b, fetchAccountTransactions "acct" (.ok demoSigs) demoFetchDecodeFail 0
        [2, 1, 0] 7 = .ok b ∧
      ({ signature := (demoSigs.getD 1 default).signature,
         slot := (demoSigs.getD 1 default).slot,
         blockTime := (demoSigs.getD 1 default).blockTime,
         meta := some 5, transaction := none } : TransactionInfo Nat Nat) ∈
        b.transactions :=
  ⟨by decide, by decide, by decide,
   spec_C6 "acct" demoSigs demoFetchDecodeFail 0 [2, 1, 0] 7 1 (some 5) "bad"
     (by decide) (by decide) (by decide)⟩

/-- C7: an empty signature listing yields a valid batch carrying the
queried account, an empty transactions sequence and the fetch
timestamp, with no error. -/
theorem spec_C7 {Meta Tx : Type} (account : String)
    (fetch : Nat → FetchOutcome Meta Tx) (limit : Int) (now : Nat) :
    fetchAccountTransactions account (.ok []) fetch limit [] now =
      .ok { account := account, transactions := [], lastFetched := now } := by
  have h0 : processCount 0 limit = 0 := by
    unfold processCount
    split_ifs with h
    · omega
    · rfl
  simp [fetchAccountTransactions, h0]

/-- C8: the call is deterministic over its functional inputs: the same
listing and per-signature fetch results give output sequences identical
in content and order under any two completion orders, with only the
timestamp differing. -/
theorem spec_C8 {Meta Tx : Type} (account : String) (sigs : List SignatureRef)
    (fetch : Nat → FetchOutcome Meta Tx) (limit : Int)
    (order₁ order₂ : List Nat) (now₁ now₂ : Nat)
    (h₁ : order₁.Perm (launchedIndices sigs.length limit))
    (h₂ : order₂.Perm (launchedIndices sigs.length limit)) :
    ∃ t, fetchAccountTransactions account (.ok sigs) fetch limit order₁ now₁ =
        .ok { account := account, transactions := t, lastFetched := now₁ } ∧
      fetchAccountTransactions account (.ok sigs) fetch limit order₂ now₂ =
        .ok { account := account, transactions := t, lastFetched := now₂ } :=
  ⟨enrichedSequence sigs fetch limit,
   fetchAccountTransactions_ok account sigs fetch limit order₁ now₁ h₁,
   fetchAccountTransactions_ok account sigs fetch limit order₂ now₂ h₂⟩

/-- Witness for C8 at two different completion orders and timestamps. -/
theorem spec_C8_witness :
    ([2, 0, 1] : List Nat).Perm (launchedIndices demoSigs.length 3) ∧
    ([0, 1, 2] : List Nat).Perm (launchedIndices demoSigs.length 3) ∧
    ∃ t, fetchAccountTransactions "acct" (.ok demoSigs) demoFetch 3
        [2, 0, 1] 7 =
        .ok { account := "acct", transactions := t, lastFetched := 7 } ∧
      fetchAccountTransactions "acct" (.ok demoSigs) demoFetch 3
        [0, 1, 2] 9 =
        .ok { account := "acct", transactions := t, lastFetched := 9 } :=
  ⟨by decide, by decide,
   spec_C8 "acct" demoSigs demoFetch 3 [2, 0, 1] [0, 1, 2] 7 9
     (by decide) (by decide)⟩

/-! ### WebSocket URL derivation (`GetWSURL`, src/unnamed/part_000)

Go strings are byte arrays; the scheme prefixes involved are ASCII, so
they are modelled as `List Char` with byte slicing as list `take`/`drop`.
An unset environment variable is the empty string (Go `os.Getenv`), and
`log.Fatal` (no URL produced) is modelled as `none`. -/

def httpsPrefix : List Char := ['h', 't', 't', 'p', 's', ':', '/', '/']

def httpPrefix : List Char := ['h', 't', 't', 'p', ':', '/', '/']

def wssPrefix : List Char := ['w', 's', 's', ':', '/', '/']

def wsPrefix : List Char := ['w', 's', ':', '/', '/']

/-- Model of `GetWSURL` (src/unnamed/part_000 lines 49-78) as a function of the
`WS_URL` and `RPC_URL` environment values: return `WS_URL` when set;
otherwise derive from `RPC_URL` by scheme substitution
(`https://`→`wss://`, `http://`→`ws://`), pass `ws://`/`wss://` URLs
through, and fall back to returning `RPC_URL` unchanged. -/
def getWSURL (wsURL rpcURL : List Char) : Option (List Char) :=
  if wsURL ≠ [] then some wsURL
  else if rpcURL = [] then none
  else if 8 ≤ rpcURL.length ∧ rpcURL.take 8 = httpsPrefix then
    some (wssPrefix ++ rpcURL.drop 8)
  else if 7 ≤ rpcURL.length ∧ rpcURL.take 7 = httpPrefix then
    some (wsPrefix ++ rpcURL.drop 7)
  else if 6 ≤ rpcURL.length ∧ rpcURL.take 6 = wssPrefix then some rpcURL
  else if 5 ≤ rpcURL.length ∧ rpcURL.take 5 = wsPrefix then some rpcURL
  else some rpcURL

/-- C9: with `WS_URL` unset, `GetWSURL` maps `https://rest` to
`wss://rest` and `http://rest` to `ws://rest`, leaving the remainder of
the URL unchanged. -/
theorem spec_C9 (rest : List Char) :
    getWSURL [] (httpsPrefix ++ rest) = some (wssPrefix ++ rest) ∧
    getWSURL [] (httpPrefix ++ rest) = some (wsPrefix ++ rest) := by
  constructor
  · unfold getWSURL
    rw [if_neg (by simp), if_neg (by simp [httpsPrefix]),
      if_pos ⟨by simp [httpsPrefix], List.take_left' (by decide)⟩,
      List.drop_left' (show httpsPrefix.length = 8 by decide)]
  · have hnot8 : ¬(8 ≤ (httpPrefix ++ rest).length ∧
        (httpPrefix ++ rest).take 8 = httpsPrefix) := by
      rintro ⟨-, h8⟩
      have h7 : (httpPrefix ++ rest).take 7 = httpsPrefix.take 7 := by
        have := congrArg (fun l => l.take 7) h8
        simpa [List.take_take] using this
      rw [List.take_left' (show httpPrefix.length = 7 by decide)] at h7
      exact absurd h7 (by decide)
    unfold getWSURL
    rw [if_neg (by simp), if_neg (by simp [httpPrefix]), if_neg hnot8,
      if_pos ⟨by simp [httpPrefix], List.take_left' (by decide)⟩,
      List.drop_left' (show httpPrefix.length = 7 by decide)]

/-! ### The post-fetch read in `main` (src/utils.go lines 71-80,
src/unnamed/part_001 lines 26-35)

`main` calls `FetchAccountTransactions`, logs a returned error without
stopping, and then unconditionally evaluates
`len(accountTxs.Transactions)`.  On the error path `accountTxs` is the
nil pointer, so that read is a nil-pointer dereference: modelled as
`none` (panic), versus `some` of the read length on the non-nil path. -/
def mainTransactionsRead {Meta Tx : Type}
    (outcome : Except String (AccountTransactions Meta Tx)) : Option Nat :=
  match outcome with
  | .error _ => none
  | .ok b => some b.transactions.length

/-- C10: for every upstream signature-listing failure, `main`'s
unconditional read of `accountTxs.Transactions` dereferences the nil
batch pointer (the modelled read panics) instead of terminating cleanly
after logging. -/
theorem spec_C10 {Meta Tx : Type} (account e : String)
    (fetch : Nat → FetchOutcome Meta Tx) (limit : Int) (order : List Nat)
    (now : Nat) :
    mainTransactionsRead
      (fetchAccountTransactions account (.error e) fetch limit order now) =
      none := rfl

end SolanaTxExplorer
